import Mathlib

/-!
Shallow embedding of the `Fable.Remoting.Ts` service-proxy factory.

The repository ships the module in two revisions:

* the revision embedded at the end of `src/README.md`, which is the one the
  current test suite (`src/tests/index.test.ts`) imports (it exports
  `RequestInterceptor`, `createRequest`, and the interceptor management
  functions).  Its definitions live at the top level of this development and
  are the authority for the current behaviour of the library.
* an earlier revision in `src/src/index.ts`, which only reserves
  `addHeaders`/`removeHeaders` and msgpack-serializes the request body.  The
  parts of it needed for comparison live in the `Legacy` namespace.

JavaScript values crossing the API are modelled coarsely by `JSVal`;
the axios default-header table is an insertion-ordered association list where
later bindings shadow earlier ones, mirroring JavaScript object spread.
The external collaborators (axios transport, msgpack codec) are parameters:
`transport : Request → AxResponse`, `serialize : List JSVal → List Nat`,
`deserialize : RData → JSVal`.
-/

namespace FableRemotingTs

/-- Coarse model of the JavaScript values that cross this library's API
(call arguments, base-object members, header records). -/
inductive JSVal where
  | vundefined
  | vnull
  | vbool (b : Bool)
  | vnum (n : Int)
  | vstr (s : String)
  | vobj (fields : List (String × String))
  deriving DecidableEq

/-- JavaScript truthiness for the modelled values. -/
def JSVal.truthy : JSVal → Bool
  | .vundefined => false
  | .vnull => false
  | .vbool b => b
  | .vnum n => decide (n ≠ 0)
  | .vstr s => decide (s ≠ "")
  | .vobj _ => true

/-- Whether `typeof v` is the string "object" (true for `null` and objects). -/
def JSVal.typeofIsObject : JSVal → Bool
  | .vnull => true
  | .vobj _ => true
  | _ => false

/-- The string-valued own fields of an object value (empty for non-objects;
only reached behind the object guard in `addHeadersInternal`). -/
def JSVal.objFields : JSVal → List (String × String)
  | .vobj fields => fields
  | _ => []

/-- The axios instance's default-header table, insertion ordered; later
bindings shadow earlier ones, mirroring JavaScript object spread. -/
abbrev Headers := List (String × String)

/-- Property read on a header object: the last binding for a key wins,
as in a JavaScript object built by spreads. -/
def hget : Headers → String → Option String
  | [], _ => none
  | (k0, v0) :: rest, k =>
    match hget rest k with
    | some v => some v
    | none => if k = k0 then some v0 else none

/-- JavaScript `delete headers[k]`: drop every binding of the key. -/
def hdelete (h : Headers) (k : String) : Headers :=
  h.filter (fun p => p.1 != k)

/-- Embedding of `addHeadersInternal($http).addHeaders(headers)` from the
current module: guard `!headers || typeof headers !== 'object'` throws a
`TypeError`, otherwise the axios defaults become
`{...$http.defaults.headers, ...headers}`.  The first component is the
thrown message (if any), the second the header table afterwards. -/
def addHeadersInternal (defaults : Headers) (headers : JSVal) : Option String × Headers :=
  if !headers.truthy || !headers.typeofIsObject then
    (some "this functioun should have one parameter and it must be an object", defaults)
  else
    (none, defaults ++ headers.objFields)

/-- A JavaScript array object is always truthy; the rest parameter
`...headers` of `removeHeaders` is always an array. -/
def arrayTruthy (_names : List String) : Bool := true

/-- Embedding of `removeHeadersInternal($http).removeHeaders(...headers)`
from the current module: the guard `if (!headers) throw` tests the rest
parameter, which is always an array and hence always truthy, and then
every named key is deleted from the axios defaults. -/
def removeHeadersInternal (defaults : Headers) (names : List String) : Option String × Headers :=
  if !arrayTruthy names then
    (some "This function should have at least 1 parameter", defaults)
  else
    (none, names.foldl hdelete defaults)

/-- HTTP method used by a synthesized call. -/
inductive Method where
  | get
  | post
  deriving DecidableEq

/-- Body of a synthesized request: absent (GET), the raw argument sequence,
or a msgpack-encoded byte sequence. -/
inductive Body where
  | empty
  | args (l : List JSVal)
  | packed (bytes : List Nat)
  deriving DecidableEq

/-- Whether the body is a msgpack-encoded byte sequence. -/
def Body.isPacked : Body → Bool
  | .packed _ => true
  | _ => false

/-- A request handed to the axios instance (`url` is the path passed to
`$http.get`/`$http.post`; axios prepends the configured `baseURL`). -/
structure Request where
  method : Method
  url : String
  body : Body
  deriving DecidableEq

/-- Request construction inside `defaultTrap` of the current module:
`url = serviceName + "/" + property`; zero arguments issue
`$http.get(url)`, one or more issue `$http.post(url, [...args])` — the
body is always the raw argument array, whatever `withMsgPack` is. -/
def defaultTrapRequest (serviceName : String) (property : String) (args : List JSVal) : Request :=
  let url := serviceName ++ "/" ++ property
  let isPost := decide (args.length > 0)
  if isPost then ⟨.post, url, .args args⟩ else ⟨.get, url, .empty⟩

/-- Response data as delivered by the transport: raw bytes (arraybuffer)
or an already structured value. -/
inductive RData where
  | bytes (bs : List Nat)
  | decoded (v : JSVal)
  deriving DecidableEq

/-- Shape of the value an axios call resolves with. -/
structure AxResponse where
  url : String
  status : Nat
  headers : Headers
  data : RData
  deriving DecidableEq

/-- The `.then` continuation of `defaultTrap` in the current module: when
`withMsgPack` is set, the resolved value is `{...result, data:
msgpack.deserialize(result.data)}`; otherwise `result` passes through
unchanged. -/
def defaultTrapThen (withMsgPack : Bool) (deserialize : RData → JSVal)
    (result : AxResponse) : AxResponse :=
  if withMsgPack then { result with data := .decoded (deserialize result.data) } else result

/-- A member of the base object: a plain data property, or an accessor
whose getter throws when read. -/
inductive Member where
  | value (v : JSVal)
  | getterRaises (e : String)
  deriving DecidableEq

/-- The caller-supplied base object (`baseService`), as its own-property
table. -/
abbrev BaseObj := List (String × Member)

/-- Outcome of a property lookup on the base object. -/
inductive LookupOutcome where
  | ok (v : JSVal)
  | raises (e : String)
  deriving DecidableEq

/-- `Reflect.get(target, property, receiver)`: an absent property reads as
`undefined`; a throwing getter propagates its exception. -/
def reflectGet (target : BaseObj) (property : String) : LookupOutcome :=
  match target.find? (fun p => p.1 == property) with
  | none => .ok .vundefined
  | some (_, .value v) => .ok v
  | some (_, .getterRaises e) => .raises e

/-- The five management functions the proxy's `get` trap special-cases. -/
inductive Mgmt where
  | addHeaders
  | removeHeaders
  | addInterceptor
  | removeInterceptor
  | createRequest
  deriving DecidableEq

/-- What a property read on the proxy evaluates to: one of the bound
management functions, a member of the base object, or the synthesized
remote-call function for that property. -/
inductive GetResult where
  | management (m : Mgmt)
  | baseMember (v : JSVal)
  | remoteCall (property : String) (withMsgPack : Bool)
  deriving DecidableEq

/-- The five reserved control names, in the order of the `switch`. -/
def reservedNames : List String :=
  ["addHeaders", "removeHeaders", "addInterceptor", "removeInterceptor", "createRequest"]

/-- The management function the `switch` returns for a reserved name. -/
def mgmtOf (property : String) : Mgmt :=
  if property = "addHeaders" then .addHeaders
  else if property = "removeHeaders" then .removeHeaders
  else if property = "addInterceptor" then .addInterceptor
  else if property = "removeInterceptor" then .removeInterceptor
  else .createRequest

/-- The `get` trap of the proxy returned by `createService` in the current
module: the `switch` handles the five reserved names first; otherwise
`Reflect.get` is attempted under `try`, the `catch` turns any exception
into `null`, and `existing ?? defaultTapInternal(...)` falls through to the
synthesized remote call exactly when the lookup produced `null` or
`undefined`.  The `Except` layer records whether the trap itself throws. -/
def getTrap (withMsgPack : Bool) (target : BaseObj) (property : String) :
    Except String GetResult :=
  if property = "addHeaders" then .ok (.management .addHeaders)
  else if property = "removeHeaders" then .ok (.management .removeHeaders)
  else if property = "addInterceptor" then .ok (.management .addInterceptor)
  else if property = "removeInterceptor" then .ok (.management .removeInterceptor)
  else if property = "createRequest" then .ok (.management .createRequest)
  else
    let existing : JSVal :=
      match reflectGet target property with
      | .ok v => v
      | .raises _ => .vnull
    if existing = .vnull ∨ existing = .vundefined then
      .ok (.remoteCall property withMsgPack)
    else
      .ok (.baseMember existing)

/-- The configuration record destructured by `createService`
(`withMsgPack` is optional in the source; an absent field is `undefined`,
which is falsy, so it is modelled as `false`). -/
structure RemotingConfigParam where
  baseURL : String
  serviceName : String
  withMsgPack : Bool
  deriving DecidableEq

/-- Default headers installed when `withMsgPack` is set. -/
def msgpackDefaultHeaders : Headers :=
  [("Content-Type", "application/msgpack"), ("Accept", "application/json, application/msgpack")]

/-- The slice of the optional axios configuration this development models:
whether the caller-supplied object carries its own `headers` field (the
spread `...axiosConfig` replaces the `headers` key wholesale when it does). -/
structure AxiosRequestConfig where
  headers : Option Headers
  deriving DecidableEq

/-- The state `createService` sets up: the configuration captured by the
closures, the axios instance's initial default headers, and the borrowed
base object wrapped by the proxy. -/
structure Service where
  baseURL : String
  serviceName : String
  withMsgPack : Bool
  defaultsHeaders : Headers
  base : BaseObj
  deriving DecidableEq

/-- Embedding of `createService` from the current module.  The source
destructures the configuration, calls `axios.create` (no request is issued),
and returns the proxy; there is no validation of `baseURL` or
`serviceName` anywhere, so construction is total. -/
def createService (config : RemotingConfigParam) (axiosConfig : Option AxiosRequestConfig)
    (baseService : BaseObj) : Service :=
  let createdHeaders : Headers :=
    match axiosConfig with
    | some c =>
      match c.headers with
      | some h => h
      | none => if config.withMsgPack then msgpackDefaultHeaders else []
    | none => if config.withMsgPack then msgpackDefaultHeaders else []
  { baseURL := config.baseURL
    serviceName := config.serviceName
    withMsgPack := config.withMsgPack
    defaultsHeaders := createdHeaders
    base := baseService }

/-- A property read on the service proxy. -/
def Service.get (s : Service) (property : String) : Except String GetResult :=
  getTrap s.withMsgPack s.base property

/-- The request a synthesized call at `property` with `args` hands to the
transport. -/
def Service.invoke (s : Service) (property : String) (args : List JSVal) : Request :=
  defaultTrapRequest s.serviceName property args

/-- A full synthesized call: build the request, run it through the
transport, and apply the `.then` continuation. -/
def Service.call (s : Service) (property : String) (args : List JSVal)
    (transport : Request → AxResponse) (deserialize : RData → JSVal) : AxResponse :=
  defaultTrapThen s.withMsgPack deserialize (transport (s.invoke property args))

namespace Legacy

/-- Request construction inside `defaultTrap` of the superseded
`src/src/index.ts` revision: `data` starts as `[...arguments]` and is
replaced by `msgpack.serialize([...arguments])` when `withMsgPack` is set;
`isPost ? $http.post(url, data) : $http.get(url)`. -/
def defaultTrapRequest (serviceName : String) (property : String) (withMsgPack : Bool)
    (serialize : List JSVal → List Nat) (args : List JSVal) : Request :=
  let url := serviceName ++ "/" ++ property
  let isPost := decide (args.length > 0)
  let data : Body := if withMsgPack then .packed (serialize args) else .args args
  if isPost then ⟨.post, url, data⟩ else ⟨.get, url, .empty⟩

/-- `removeHeaders` of the superseded `src/src/index.ts` revision:
`arguments.length <= 0` yields `null`, which fails the `!headers` guard and
throws; otherwise each named key is deleted. -/
def removeHeadersInternal (defaults : Headers) (names : List String) :
    Option String × Headers :=
  if names.isEmpty then
    (some "This function should have at least 1 parameter", defaults)
  else
    (none, names.foldl hdelete defaults)

end Legacy

/-! Model of the ES2015 `Proxy` object.  `createService` installs a handler
with only a `get` trap; by the language's proxy semantics every operation
whose trap is absent is forwarded to the target object. -/

/-- A proxy handler: each trap is optional, as in ES2015. -/
structure ProxyHandler where
  getTrapFn : Option (BaseObj → String → Except String GetResult)
  hasTrapFn : Option (BaseObj → String → Bool)
  ownKeysTrapFn : Option (BaseObj → List String)
  setTrapFn : Option (BaseObj → String → JSVal → BaseObj)
  deleteTrapFn : Option (BaseObj → String → BaseObj)

/-- Default `in` test on the target object. -/
def baseHas (target : BaseObj) (k : String) : Bool :=
  (target.find? (fun p => p.1 == k)).isSome

/-- Default key enumeration of the target object. -/
def baseOwnKeys (target : BaseObj) : List String :=
  target.map Prod.fst

/-- Default property write on the target object. -/
def baseSet (target : BaseObj) (k : String) (v : JSVal) : BaseObj :=
  if (target.find? (fun p => p.1 == k)).isSome then
    target.map (fun p => if p.1 == k then (p.1, Member.value v) else p)
  else
    target ++ [(k, Member.value v)]

/-- Default property delete on the target object. -/
def baseDelete (target : BaseObj) (k : String) : BaseObj :=
  target.filter (fun p => p.1 != k)

/-- A proxy: a target object together with its handler. -/
structure JSProxy where
  target : BaseObj
  handler : ProxyHandler

/-- Property read through the proxy: the `get` trap if installed,
otherwise the default forwarding to the target. -/
def proxyGet (p : JSProxy) (k : String) : Except String GetResult :=
  match p.handler.getTrapFn with
  | some t => t p.target k
  | none =>
    match reflectGet p.target k with
    | .ok v => .ok (.baseMember v)
    | .raises e => .error e

/-- The `in` membership test through the proxy. -/
def proxyHas (p : JSProxy) (k : String) : Bool :=
  match p.handler.hasTrapFn with
  | some t => t p.target k
  | none => baseHas p.target k

/-- Key enumeration through the proxy. -/
def proxyOwnKeys (p : JSProxy) : List String :=
  match p.handler.ownKeysTrapFn with
  | some t => t p.target
  | none => baseOwnKeys p.target

/-- Property write through the proxy. -/
def proxySet (p : JSProxy) (k : String) (v : JSVal) : BaseObj :=
  match p.handler.setTrapFn with
  | some t => t p.target k v
  | none => baseSet p.target k v

/-- Property delete through the proxy. -/
def proxyDelete (p : JSProxy) (k : String) : BaseObj :=
  match p.handler.deleteTrapFn with
  | some t => t p.target k
  | none => baseDelete p.target k

/-- The handler `createService` passes to `new Proxy`: only `get` is
present. -/
def serviceHandler (withMsgPack : Bool) : ProxyHandler :=
  { getTrapFn := some (getTrap withMsgPack)
    hasTrapFn := none
    ownKeysTrapFn := none
    setTrapFn := none
    deleteTrapFn := none }

/-- The proxy object `createService` returns, wrapping the borrowed base
object. -/
def serviceProxy (withMsgPack : Bool) (baseService : BaseObj) : JSProxy :=
  { target := baseService, handler := serviceHandler withMsgPack }

/-! Helper lemmas about the header table. -/

/-- Lookup in a concatenation: bindings of the right part shadow those of
the left, exactly as `{...a, ...b}` behaves in JavaScript. -/
theorem hget_append (a b : Headers) (k : String) :
    hget (a ++ b) k = ((hget b k).orElse (fun _ => hget a k)) := by
  induction a with
  | nil =>
    simp only [List.nil_append]
    cases hget b k <;> simp [hget, Option.orElse]
  | cons p a ih =>
    obtain ⟨k0, v0⟩ := p
    simp only [List.cons_append, hget, List.append_eq]
    rw [ih]
    cases hget b k <;> cases hget a k <;> simp [Option.orElse]

/-- Deleting a key removes exactly that key from the lookup view. -/
theorem hget_hdelete (h : Headers) (k0 k : String) :
    hget (hdelete h k0) k = if k = k0 then none else hget h k := by
  induction h with
  | nil => simp [hdelete, hget]
  | cons p t ih =>
    obtain ⟨k1, v1⟩ := p
    by_cases hk1 : k1 = k0
    · subst hk1
      simp only [hdelete, List.filter_cons, bne_self_eq_false, Bool.false_eq_true,
        if_false, hget] at *
      rw [ih]
      by_cases hk : k = k1
      · subst hk; simp
      · simp only [hk, if_false]
        cases hget t k <;> simp [hget, hk]
    · have hb : (k1 != k0) = true := by simp [bne, hk1]
      simp only [hdelete, List.filter_cons, hb, if_true, hget] at *
      rw [ih]
      by_cases hk : k = k0
      · subst hk
        have : ¬ k = k1 := fun hc => hk1 (hc ▸ rfl)
        simp [this]
      · simp only [hk, if_false]

/-- Folding `hdelete` over a list of names removes exactly the named keys. -/
theorem hget_foldl_hdelete (names : List String) (h : Headers) (k : String) :
    hget (names.foldl hdelete h) k = if k ∈ names then none else hget h k := by
  induction names generalizing h with
  | nil => simp
  | cons n ns ih =>
    simp only [List.foldl_cons, ih, hget_hdelete, List.mem_cons]
    by_cases hkn : k = n
    · simp [hkn]
    · by_cases hks : k ∈ ns <;> simp [hkn, hks]

/-! Helper lemmas about the `get` trap. -/

/-- Unpacking non-membership in the reserved-name list. -/
theorem not_mem_reserved (property : String) (h : property ∉ reservedNames) :
    property ≠ "addHeaders" ∧ property ≠ "removeHeaders" ∧ property ≠ "addInterceptor" ∧
      property ≠ "removeInterceptor" ∧ property ≠ "createRequest" := by
  simp only [reservedNames, List.mem_cons, List.not_mem_nil, or_false, not_or] at h
  exact h

/-- For a non-reserved name the trap reduces to the base-object lookup with
its `catch` and the `??` fallback. -/
theorem getTrap_not_reserved (withMsgPack : Bool) (target : BaseObj) (property : String)
    (hres : property ∉ reservedNames) :
    getTrap withMsgPack target property =
      (let existing : JSVal :=
        match reflectGet target property with
        | .ok v => v
        | .raises _ => .vnull
      if existing = .vnull ∨ existing = .vundefined then
        .ok (.remoteCall property withMsgPack)
      else
        .ok (.baseMember existing)) := by
  obtain ⟨h1, h2, h3, h4, h5⟩ := not_mem_reserved property hres
  simp [getTrap, h1, h2, h3, h4, h5]

/-- A non-reserved name absent from the base object resolves to the
synthesized remote call. -/
theorem getTrap_absent (withMsgPack : Bool) (target : BaseObj) (property : String)
    (hres : property ∉ reservedNames)
    (habs : target.find? (fun p => p.1 == property) = none) :
    getTrap withMsgPack target property = .ok (.remoteCall property withMsgPack) := by
  rw [getTrap_not_reserved withMsgPack target property hres]
  simp [reflectGet, habs]

/-- A reserved name resolves to its management function, whatever the base
object holds. -/
theorem getTrap_reserved (withMsgPack : Bool) (target : BaseObj) (property : String)
    (h : property ∈ reservedNames) :
    getTrap withMsgPack target property = .ok (.management (mgmtOf property)) := by
  have hs : property = "addHeaders" ∨ property = "removeHeaders" ∨
      property = "addInterceptor" ∨ property = "removeInterceptor" ∨
      property = "createRequest" := by
    simpa [reservedNames] using h
  rcases hs with h1 | h1 | h1 | h1 | h1 <;> subst h1 <;> simp [getTrap, mgmtOf]

/-! Claim theorems. -/

/-- Claim C1, counterexample: with both required fields empty,
`createService` still succeeds — it returns a proxy whose property reads
synthesize remote calls and whose synthesized URL is the malformed
`"/getSample"`; no configuration error is raised. -/
theorem createService_empty_config_builds_proxy :
    (createService ⟨"", "", false⟩ none []).get "getSample" =
      .ok (.remoteCall "getSample" false) ∧
    (createService ⟨"", "", false⟩ none []).invoke "getSample" [] =
      { method := .get, url := "/getSample", body := .empty } :=
  ⟨rfl, rfl⟩

/-- Claim C1, amended: `createService` performs no runtime validation of
`baseURL` or `serviceName`; for every configuration — absent or empty
values included — it synchronously constructs and returns the proxy
without issuing any network call, and synthesized calls concatenate
`serviceName ++ "/" ++ property` unchanged. -/
theorem createService_total_no_validation (config : RemotingConfigParam)
    (axiosConfig : Option AxiosRequestConfig) (baseService : BaseObj)
    (property : String) (hres : property ∉ reservedNames)
    (habs : baseService.find? (fun p => p.1 == property) = none) :
    (createService config axiosConfig baseService).serviceName = config.serviceName ∧
    (createService config axiosConfig baseService).get property =
      .ok (.remoteCall property config.withMsgPack) ∧
    (createService config axiosConfig baseService).invoke property [] =
      { method := .get, url := config.serviceName ++ "/" ++ property, body := .empty } := by
  refine ⟨rfl, ?_, rfl⟩
  exact getTrap_absent config.withMsgPack baseService property hres habs

/-- Claim C1, amended, witness at a concrete empty configuration. -/
theorem createService_total_no_validation_witness :
    (createService ⟨"", "", false⟩ none []).get "m" = .ok (.remoteCall "m" false) ∧
    (createService ⟨"", "", false⟩ none []).invoke "m" [] =
      { method := .get, url := "/m", body := .empty } :=
  ⟨(createService_total_no_validation ⟨"", "", false⟩ none [] "m" (by decide) rfl).2.1,
   (createService_total_no_validation ⟨"", "", false⟩ none [] "m" (by decide) rfl).2.2⟩

/-- Claim C2: for a non-reserved property name absent from the base object,
reading the proxy yields the synthesized remote-call function; invoking it
with zero arguments issues a GET with no body to
`serviceName ++ "/" ++ property`, and invoking it with one or more
arguments issues a POST to the same URL whose body is the ordered argument
sequence (a single argument is the one-element sequence, never a bare
value). -/
theorem synthesized_call_request_shape (s : Service) (property : String) (args : List JSVal)
    (hres : property ∉ reservedNames)
    (habs : s.base.find? (fun p => p.1 == property) = none) :
    s.get property = .ok (.remoteCall property s.withMsgPack) ∧
    (args = [] → s.invoke property args =
      { method := .get, url := s.serviceName ++ "/" ++ property, body := .empty }) ∧
    (args ≠ [] → s.invoke property args =
      { method := .post, url := s.serviceName ++ "/" ++ property, body := .args args }) := by
  refine ⟨getTrap_absent s.withMsgPack s.base property hres habs, ?_, ?_⟩
  · intro h
    subst h
    rfl
  · intro h
    cases args with
    | nil => exact absurd rfl h
    | cons a l => simp [Service.invoke, defaultTrapRequest]

/-- Claim C2, witness: the scenario of the spec — `getSample()` issues
`GET IMyService/getSample` with no body, and `postSample({sample:"string"})`
issues `POST IMyService/postSample` with the one-element argument
sequence as the body. -/
theorem synthesized_call_request_shape_witness :
    (createService ⟨"http://localhost/", "IMyService", false⟩ none []).get "postSample" =
      .ok (.remoteCall "postSample" false) ∧
    (createService ⟨"http://localhost/", "IMyService", false⟩ none []).invoke "getSample" [] =
      { method := .get, url := "IMyService/getSample", body := .empty } ∧
    (createService ⟨"http://localhost/", "IMyService", false⟩ none []).invoke "postSample"
        [JSVal.vobj [("sample", "string")]] =
      { method := .post, url := "IMyService/postSample",
        body := .args [JSVal.vobj [("sample", "string")]] } :=
  ⟨(synthesized_call_request_shape (createService ⟨"http://localhost/", "IMyService", false⟩
      none []) "postSample" [] (by decide) rfl).1,
   (synthesized_call_request_shape (createService ⟨"http://localhost/", "IMyService", false⟩
      none []) "getSample" [] (by decide) rfl).2.1 rfl,
   (synthesized_call_request_shape (createService ⟨"http://localhost/", "IMyService", false⟩
      none []) "postSample" [JSVal.vobj [("sample", "string")]] (by decide) rfl).2.2
      (by simp)⟩

/-- Claim C3: accessing any of the five reserved control names on the proxy
returns the corresponding management function of the service's own axios
instance, whatever the base object holds — never a base member and never a
synthesized remote call. -/
theorem reserved_names_precedence (s : Service) (property : String)
    (h : property ∈ reservedNames) :
    s.get property = .ok (.management (mgmtOf property)) ∧
    (∀ q wm, s.get property ≠ .ok (.remoteCall q wm)) ∧
    (∀ v, s.get property ≠ .ok (.baseMember v)) := by
  have hmain : s.get property = .ok (.management (mgmtOf property)) :=
    getTrap_reserved s.withMsgPack s.base property h
  refine ⟨hmain, ?_, ?_⟩
  · intro q wm hc
    rw [hmain] at hc
    simp at hc
  · intro v hc
    rw [hmain] at hc
    simp at hc

/-- Claim C3, witness: `addInterceptor` resolves to the management function
even when the base object carries a same-named member. -/
theorem reserved_names_precedence_witness :
    (createService ⟨"http://localhost/", "IMyService", false⟩ none
        [("addInterceptor", .value (.vstr "shadowed"))]).get "addInterceptor" =
      .ok (.management .addInterceptor) :=
  (reserved_names_precedence (createService ⟨"http://localhost/", "IMyService", false⟩ none
      [("addInterceptor", .value (.vstr "shadowed"))]) "addInterceptor" (by decide)).1

/-- Claim C4: for a non-reserved name, a base-object member that is neither
`null` nor `undefined` is returned as-is on every access, never a
synthesized call; an absent name does not raise and falls through to the
synthesized remote-call function.  The trap is a pure function of the base
object's current contents, so the precedence is recomputed on each access
rather than cached. -/
theorem base_object_precedence (s : Service) (property : String) (v : JSVal)
    (hres : property ∉ reservedNames) :
    (s.base.find? (fun p => p.1 == property) = some (property, .value v) →
      v ≠ .vnull → v ≠ .vundefined → s.get property = .ok (.baseMember v)) ∧
    (s.base.find? (fun p => p.1 == property) = none →
      s.get property = .ok (.remoteCall property s.withMsgPack)) := by
  constructor
  · intro hfind hv1 hv2
    show getTrap s.withMsgPack s.base property = _
    rw [getTrap_not_reserved s.withMsgPack s.base property hres]
    simp [reflectGet, hfind, hv1, hv2]
  · intro habs
    exact getTrap_absent s.withMsgPack s.base property hres habs

/-- Claim C4, witness: the `someProperty` member of a supplied base object
is read back unchanged, while an absent name on the same proxy falls
through to a synthesized call. -/
theorem base_object_precedence_witness :
    (createService ⟨"http://localhost/", "IMyService", false⟩ none
        [("someProperty", .value (.vstr "IExist"))]).get "someProperty" =
      .ok (.baseMember (.vstr "IExist")) ∧
    (createService ⟨"http://localhost/", "IMyService", false⟩ none
        [("someProperty", .value (.vstr "IExist"))]).get "IDontExistAtAll" =
      .ok (.remoteCall "IDontExistAtAll" false) :=
  ⟨(base_object_precedence (createService ⟨"http://localhost/", "IMyService", false⟩ none
      [("someProperty", .value (.vstr "IExist"))]) "someProperty" (.vstr "IExist")
      (by decide)).1 rfl (by simp) (by simp),
   (base_object_precedence (createService ⟨"http://localhost/", "IMyService", false⟩ none
      [("someProperty", .value (.vstr "IExist"))]) "IDontExistAtAll" .vnull
      (by decide)).2 rfl⟩

/-- Claim C9: a property read on the proxy never throws — the trap always
returns normally for every base object and name — and when the base
object's own getter for a non-reserved name throws, the exception is
swallowed by the `catch` and the access falls through to the synthesized
remote-call function. -/
theorem get_never_throws (withMsgPack : Bool) (target : BaseObj) (property : String) :
    (∃ r, getTrap withMsgPack target property = .ok r) ∧
    (∀ e, property ∉ reservedNames →
      target.find? (fun p => p.1 == property) = some (property, .getterRaises e) →
      getTrap withMsgPack target property = .ok (.remoteCall property withMsgPack)) := by
  constructor
  · by_cases hres : property ∈ reservedNames
    · exact ⟨.management (mgmtOf property), getTrap_reserved withMsgPack target property hres⟩
    · rw [getTrap_not_reserved withMsgPack target property hres]
      dsimp only
      split
      · exact ⟨_, rfl⟩
      · exact ⟨_, rfl⟩
  · intro e hres hfind
    rw [getTrap_not_reserved withMsgPack target property hres]
    simp [reflectGet, hfind]

/-- Claim C9, witness: a base object whose `boom` getter throws still lets
`proxy.boom` resolve to the synthesized remote call, without raising. -/
theorem get_never_throws_witness :
    getTrap false [("boom", .getterRaises "kaboom")] "boom" =
      .ok (.remoteCall "boom" false) :=
  (get_never_throws false [("boom", .getterRaises "kaboom")] "boom").2 "kaboom"
    (by decide) rfl

/-- Claim C5, counterexample: on a proxy constructed with
`withMsgPack = true`, `postSample({sample:"string"})` hands the transport
the raw one-element argument sequence, not a msgpack-encoded byte
sequence — the body is the `args` form and is not packed. -/
theorem msgpack_body_not_serialized_cex :
    ((createService ⟨"http://localhost/", "IMyService", true⟩ none []).invoke "postSample"
        [JSVal.vobj [("sample", "string")]]).body =
      Body.args [JSVal.vobj [("sample", "string")]] ∧
    (((createService ⟨"http://localhost/", "IMyService", true⟩ none []).invoke "postSample"
        [JSVal.vobj [("sample", "string")]]).body).isPacked = false :=
  ⟨rfl, rfl⟩

/-- Claim C5, amended: in the current module the body handed to the
transport's write operation is always the raw argument sequence, for both
settings of `withMsgPack`; only the superseded `src/src/index.ts` revision
encoded the sequence with the msgpack codec before transmission. -/
theorem request_body_always_args (s : Service) (property : String) (args : List JSVal)
    (serialize : List JSVal → List Nat) (hargs : args ≠ []) :
    (s.invoke property args).body = Body.args args ∧
    (Legacy.defaultTrapRequest s.serviceName property true serialize args).body =
      Body.packed (serialize args) := by
  cases args with
  | nil => exact absurd rfl hargs
  | cons a l =>
    constructor
    · simp [Service.invoke, defaultTrapRequest]
    · simp [Legacy.defaultTrapRequest]

/-- Claim C5, amended, witness at a concrete msgpack-enabled call. -/
theorem request_body_always_args_witness :
    ((createService ⟨"http://localhost/", "IMyService", true⟩ none []).invoke "postSample"
        [JSVal.vobj [("hello", "world")]]).body =
      Body.args [JSVal.vobj [("hello", "world")]] ∧
    (Legacy.defaultTrapRequest "IMyService" "postSample" true (fun _ => [129, 165])
        [JSVal.vobj [("hello", "world")]]).body = Body.packed [129, 165] :=
  request_body_always_args (createService ⟨"http://localhost/", "IMyService", true⟩ none [])
    "postSample" [JSVal.vobj [("hello", "world")]] (fun _ => [129, 165]) (by simp)

/-- Claim C6: a synthesized call on a msgpack-enabled proxy resolves to the
transport's response with only its data field replaced by the decoded
value — url, status and headers pass through unmodified — while with
`withMsgPack` unset the raw response object is resolved unchanged. -/
theorem msgpack_response_decoding (s : Service) (property : String) (args : List JSVal)
    (transport : Request → AxResponse) (deserialize : RData → JSVal) :
    (s.withMsgPack = true →
      s.call property args transport deserialize =
        { transport (s.invoke property args) with
            data := .decoded (deserialize (transport (s.invoke property args)).data) }) ∧
    (s.withMsgPack = false →
      s.call property args transport deserialize = transport (s.invoke property args)) := by
  constructor <;> intro h <;> simp [Service.call, defaultTrapThen, h]

/-- Claim C6, witness: the mocked transport of the test suite returns the
packed bytes of `{hello:"world"}`; a msgpack-enabled proxy resolves with
the decoded object while url, status and headers survive unchanged, and a
msgpack-disabled proxy resolves with the raw response. -/
theorem msgpack_response_decoding_witness :
    (createService ⟨"http://localhost/", "IMyService", true⟩ none []).call "postSample"
        [JSVal.vobj [("hello", "world")]]
        (fun r => ⟨r.url, 200, [("x", "1")], RData.bytes [129, 165]⟩)
        (fun _ => JSVal.vobj [("hello", "world")]) =
      ⟨"IMyService/postSample", 200, [("x", "1")],
        RData.decoded (JSVal.vobj [("hello", "world")])⟩ ∧
    (createService ⟨"http://localhost/", "IMyService", false⟩ none []).call "getSample" []
        (fun r => ⟨r.url, 200, [], RData.bytes [129, 165]⟩)
        (fun _ => JSVal.vobj [("hello", "world")]) =
      ⟨"IMyService/getSample", 200, [], RData.bytes [129, 165]⟩ :=
  ⟨(msgpack_response_decoding (createService ⟨"http://localhost/", "IMyService", true⟩ none [])
      "postSample" [JSVal.vobj [("hello", "world")]]
      (fun r => ⟨r.url, 200, [("x", "1")], RData.bytes [129, 165]⟩)
      (fun _ => JSVal.vobj [("hello", "world")])).1 rfl,
   (msgpack_response_decoding (createService ⟨"http://localhost/", "IMyService", false⟩ none [])
      "getSample" [] (fun r => ⟨r.url, 200, [], RData.bytes [129, 165]⟩)
      (fun _ => JSVal.vobj [("hello", "world")])).2 rfl⟩

/-- Claim C7: `addHeaders` with a (non-null) object argument merges its
key/value pairs into the axios defaults — every given key now reads as its
given value, every other default keeps its previous value — and with a
missing or non-object argument it throws a TypeError and leaves the
defaults untouched. -/
theorem addHeaders_merge (defaults fields : Headers) (arg : JSVal) :
    (arg = .vobj fields →
      addHeadersInternal defaults arg = (none, defaults ++ fields) ∧
      ∀ k, hget (addHeadersInternal defaults arg).2 k =
        ((hget fields k).orElse (fun _ => hget defaults k))) ∧
    ((∀ f, arg ≠ .vobj f) →
      (addHeadersInternal defaults arg).1.isSome = true ∧
      (addHeadersInternal defaults arg).2 = defaults) := by
  constructor
  · intro h
    subst h
    have hval : addHeadersInternal defaults (.vobj fields) = (none, defaults ++ fields) := by
      simp [addHeadersInternal, JSVal.truthy, JSVal.typeofIsObject, JSVal.objFields]
    refine ⟨hval, fun k => ?_⟩
    rw [hval]
    exact hget_append defaults fields k
  · intro h
    cases arg with
    | vobj f => exact absurd rfl (h f)
    | vundefined => exact ⟨rfl, rfl⟩
    | vnull => exact ⟨rfl, rfl⟩
    | vbool b =>
      cases b <;> exact ⟨rfl, rfl⟩
    | vnum n =>
      constructor <;> simp [addHeadersInternal, JSVal.typeofIsObject]
    | vstr str =>
      constructor <;> simp [addHeadersInternal, JSVal.typeofIsObject]

/-- Claim C7, witness: merging overwrites the existing `Authorization`
binding, preserves the unrelated `x` binding, and a `null` argument throws
while leaving the defaults untouched. -/
theorem addHeaders_merge_witness :
    addHeadersInternal [("Authorization", "old"), ("x", "1")]
        (.vobj [("Authorization", "new")]) =
      (none, [("Authorization", "old"), ("x", "1"), ("Authorization", "new")]) ∧
    hget (addHeadersInternal [("Authorization", "old"), ("x", "1")]
        (.vobj [("Authorization", "new")])).2 "Authorization" = some "new" ∧
    hget (addHeadersInternal [("Authorization", "old"), ("x", "1")]
        (.vobj [("Authorization", "new")])).2 "x" = some "1" ∧
    (addHeadersInternal [("x", "1")] .vnull).1.isSome = true ∧
    (addHeadersInternal [("x", "1")] .vnull).2 = [("x", "1")] :=
  ⟨((addHeaders_merge [("Authorization", "old"), ("x", "1")] [("Authorization", "new")]
      (.vobj [("Authorization", "new")])).1 rfl).1,
   by
    rw [((addHeaders_merge [("Authorization", "old"), ("x", "1")] [("Authorization", "new")]
        (.vobj [("Authorization", "new")])).1 rfl).2 "Authorization"]
    rfl,
   by
    rw [((addHeaders_merge [("Authorization", "old"), ("x", "1")] [("Authorization", "new")]
        (.vobj [("Authorization", "new")])).1 rfl).2 "x"]
    rfl,
   ((addHeaders_merge [("x", "1")] [] .vnull).2 (fun f hf => JSVal.noConfusion hf)).1,
   ((addHeaders_merge [("x", "1")] [] .vnull).2 (fun f hf => JSVal.noConfusion hf)).2⟩

/-- Claim C8, counterexample: calling `removeHeaders` with zero names does
not throw — the guard `if (!headers) throw` tests the rest-parameter
array, which is always truthy — and the defaults are returned unchanged,
where the claim requires a TypeError. -/
theorem removeHeaders_zero_names_no_throw_cex :
    removeHeadersInternal [("a", "1")] [] = (none, [("a", "1")]) := rfl

/-- Claim C8, amended: `removeHeaders` never throws; with zero names it is
a silent no-op leaving the defaults unchanged, and with one or more names
it deletes exactly the named keys — names not present are silently
ignored and every other header keeps its value. -/
theorem removeHeaders_semantics (defaults : Headers) (names : List String) :
    (removeHeadersInternal defaults names).1 = none ∧
    removeHeadersInternal defaults [] = (none, defaults) ∧
    ∀ k, hget (removeHeadersInternal defaults names).2 k =
      if k ∈ names then none else hget defaults k := by
  refine ⟨rfl, rfl, fun k => ?_⟩
  show hget (names.foldl hdelete defaults) k = _
  exact hget_foldl_hdelete names defaults k

/-- Claim C10: only property reads are intercepted — the handler installs a
`get` trap alone, so membership tests, key enumeration, writes and deletes
forward to the base object.  For a base object lacking `addHeaders`, the
name is not `in` the proxy and does not enumerate, yet reading it returns
the management function. -/
theorem only_get_trap_intercepted (withMsgPack : Bool) (target : BaseObj)
    (h : target.find? (fun p => p.1 == "addHeaders") = none) :
    proxyHas (serviceProxy withMsgPack target) "addHeaders" = false ∧
    "addHeaders" ∉ proxyOwnKeys (serviceProxy withMsgPack target) ∧
    proxyGet (serviceProxy withMsgPack target) "addHeaders" =
      .ok (.management .addHeaders) ∧
    (∀ k, proxyHas (serviceProxy withMsgPack target) k = baseHas target k) ∧
    proxyOwnKeys (serviceProxy withMsgPack target) = baseOwnKeys target ∧
    (∀ k v, proxySet (serviceProxy withMsgPack target) k v = baseSet target k v) ∧
    (∀ k, proxyDelete (serviceProxy withMsgPack target) k = baseDelete target k) := by
  refine ⟨?_, ?_, ?_, fun k => rfl, rfl, fun k v => rfl, fun k => rfl⟩
  · show baseHas target "addHeaders" = false
    simp [baseHas, h]
  · show "addHeaders" ∉ baseOwnKeys target
    intro hmem
    rw [baseOwnKeys, List.mem_map] at hmem
    obtain ⟨q, hq, hfst⟩ := hmem
    have hnone := List.find?_eq_none.mp h q hq
    rw [hfst] at hnone
    simp at hnone
  · show getTrap withMsgPack target "addHeaders" = _
    simp [getTrap]

/-- Claim C10, witness: on an empty base object, `"addHeaders" in proxy` is
false and the name does not enumerate, yet reading it yields the
management function; writes and deletes forward to the base object. -/
theorem only_get_trap_intercepted_witness :
    proxyHas (serviceProxy false []) "addHeaders" = false ∧
    "addHeaders" ∉ proxyOwnKeys (serviceProxy false []) ∧
    proxyGet (serviceProxy false []) "addHeaders" = .ok (.management .addHeaders) :=
  ⟨(only_get_trap_intercepted false [] rfl).1,
   (only_get_trap_intercepted false [] rfl).2.1,
   (only_get_trap_intercepted false [] rfl).2.2.1⟩

end FableRemotingTs
